import Mathlib

/-!
Verification model of the signage_pi playback core.

Shallow embedding of the Python sources:
- src/player.py (SmartPlaylistPlayer, PresentationConverter)
- src/web_player.py (playlist resolution, sync position, command relay)
- src/dashboard.py (playlist normalization and orphan pruning)
- src/presentation_converter.py (PresentationConverter)

Python dict/JSON values reachable in these code paths are modelled by
small inductive types; file-system snapshots are explicit structures;
the stateful conversion cache is explicit state passing.
-/

/-- Value found under the repeats key of a playlist object entry.
rint models a value Python int() accepts; rbad models one where
int() raises, so the except branch yields 1. -/
inductive RepVal where
  | rint (n : Int)
  | rbad
deriving DecidableEq, Repr

/-- One element of the ordering-file JSON array: a bare string, an
object with optional name, filename and repeats keys, or any other
JSON value (skipped by every reader). -/
inductive JEntry where
  | jstr (s : String)
  | jobj (nm : Option String) (fn : Option String) (rv : Option RepVal)
  | jother
deriving DecidableEq, Repr

/-- Top-level value of the ordering file: a list, or anything else. -/
inductive JValue where
  | jlist (es : List JEntry)
  | jnonlist
deriving DecidableEq, Repr

/-- Python truthiness filter on an optional string: None and the empty
string are falsy. -/
def truthyStr (o : Option String) : Option String :=
  match o with
  | some s => if s = "" then none else some s
  | none => none

/-- Models the expression entry.get(name-key) or entry.get(filename-key)
followed by the truthiness test if name. -/
def firstTruthy (a b : Option String) : Option String :=
  match truthyStr a with
  | some s => some s
  | none => truthyStr b

/-- Models int(entry.get(repeats-key, 1)) with the surrounding
try/except that falls back to 1. -/
def repInt (rv : Option RepVal) : Int :=
  match rv with
  | none => 1
  | some (RepVal.rint n) => n
  | some RepVal.rbad => 1

/-- Normalized playlist entry, as produced by
normalize_playlist_to_objects in src/dashboard.py (and by the identical
inline normalization in src/player.py and src/web_player.py). -/
structure PlaylistEntry where
  name : String
  repeats : Nat
deriving DecidableEq, Repr

/-- Normalization of a single raw entry (src/dashboard.py lines 170-181):
a bare string becomes (name, 1); an object keeps the first truthy of
name/filename and clamps repeats below by 1; objects with no truthy
name and non-string non-dict values are dropped. -/
def normalizeEntry (e : JEntry) : Option PlaylistEntry :=
  match e with
  | JEntry.jstr s => some { name := s, repeats := 1 }
  | JEntry.jobj nm fn rv =>
      match firstTruthy nm fn with
      | some n => some { name := n, repeats := (max 1 (repInt rv)).toNat }
      | none => none
  | JEntry.jother => none

/-- The accumulation loop of normalize_playlist_to_objects, appending
the normalized form of each entry in order. -/
def normLoop (es : List JEntry) : List PlaylistEntry :=
  match es with
  | [] => []
  | e :: rest =>
      match normalizeEntry e with
      | some x => x :: normLoop rest
      | none => normLoop rest

/-- normalize_playlist_to_objects (src/dashboard.py lines 163-182): a
non-list top-level value yields the empty normalized playlist. -/
def normalize_playlist_to_objects (raw : JValue) : List PlaylistEntry :=
  match raw with
  | JValue.jlist es => normLoop es
  | JValue.jnonlist => []

theorem normLoop_eq_filterMap (es : List JEntry) :
    normLoop es = es.filterMap normalizeEntry := by
  induction es with
  | nil => rfl
  | cons e rest ih =>
      cases h : normalizeEntry e <;> simp [normLoop, h, ih, List.filterMap_cons]

theorem normLoop_repeats_pos {e : PlaylistEntry} {es : List JEntry}
    (h : e ∈ normLoop es) : 1 ≤ e.repeats := by
  induction es with
  | nil => simp [normLoop] at h
  | cons x rest ih =>
      cases hx : normalizeEntry x with
      | none => rw [normLoop, hx] at h; exact ih h
      | some y =>
          rw [normLoop, hx] at h
          rcases List.mem_cons.mp h with h1 | h2
          · subst h1
            cases x with
            | jstr s =>
                simp only [normalizeEntry, Option.some.injEq] at hx
                cases hx
                exact Nat.le_refl 1
            | jobj nm fn rv =>
                simp only [normalizeEntry] at hx
                cases hft : firstTruthy nm fn with
                | none => rw [hft] at hx; exact absurd hx (by simp)
                | some n =>
                    rw [hft] at hx
                    have he : e.repeats = (max 1 (repInt rv)).toNat := by
                      cases hx; rfl
                    have h1 : (1 : Int) ≤ max 1 (repInt rv) := le_max_left _ _
                    rw [he]
                    omega
            | jother => simp [normalizeEntry] at hx
          · exact ih h2

/-- Item kind of a resolved playable item in src/player.py. -/
inductive ItemKind where
  | video
  | slide
deriving DecidableEq, Repr

/-- A resolved playable item as built by build_playlist_items in
src/player.py: a dict with type, path and duration. Videos carry the
sentinel duration -1, slides the fixed SLIDE_DURATION = 10. -/
structure PlayItem where
  kind : ItemKind
  path : String
  duration : Int
deriving DecidableEq, Repr

def mkVideoItem (p : String) : PlayItem := { kind := ItemKind.video, path := p, duration := -1 }

def mkSlideItem (p : String) : PlayItem := { kind := ItemKind.slide, path := p, duration := 10 }

/-- Fixed snapshot of the two content directories as seen by
src/player.py: names of recognized video files, names of recognized
presentation files, and the slide list the converter returns for each
presentation name. -/
structure Snapshot where
  videos : List String
  presentations : List String
  slides : String → List String

/-- Contribution of one normalized entry to the resolved item list:
a video entry yields repeats copies of its video item; a presentation
entry yields repeats contiguous copies of its whole slide sequence;
an orphaned or empty-named entry yields nothing. Mode is hardcoded to
both in the source, so the mode tests are always true. -/
def expandEntry (snap : Snapshot) (e : PlaylistEntry) : List PlayItem :=
  if e.name = "" then []
  else if e.name ∈ snap.videos then
    List.replicate e.repeats (mkVideoItem e.name)
  else if e.name ∈ snap.presentations then
    List.flatten (List.replicate e.repeats ((snap.slides e.name).map mkSlideItem))
  else []

/-- The entry loop of build_playlist_items (src/player.py lines
195-215), threading the playlist_items accumulator. -/
def buildLoop (snap : Snapshot) (es : List PlaylistEntry) (acc : List PlayItem) : List PlayItem :=
  match es with
  | [] => acc
  | e :: rest =>
      if e.name = "" then buildLoop snap rest acc
      else if e.name ∈ snap.videos then
        buildLoop snap rest (acc ++ List.replicate e.repeats (mkVideoItem e.name))
      else if e.name ∈ snap.presentations then
        buildLoop snap rest
          (acc ++ List.flatten (List.replicate e.repeats ((snap.slides e.name).map mkSlideItem)))
      else buildLoop snap rest acc

/-- Fallback branch of build_playlist_items when the JSON playlist is
missing or empty: all videos, then all presentations, in sorted
directory order (the snapshot lists are taken in that order). -/
def fallback_items (snap : Snapshot) : List PlayItem :=
  snap.videos.map mkVideoItem ++
    (snap.presentations.map (fun p => (snap.slides p).map mkSlideItem)).flatten

/-- build_playlist_items (src/player.py lines 154-232) applied to the
normalized entry list selected and a fixed directory snapshot. -/
def build_playlist_items (snap : Snapshot) (selected : List PlaylistEntry) : List PlayItem :=
  if selected.isEmpty then fallback_items snap
  else buildLoop snap selected []

theorem buildLoop_eq_join (snap : Snapshot) (es : List PlaylistEntry) (acc : List PlayItem) :
    buildLoop snap es acc = acc ++ (es.map (expandEntry snap)).flatten := by
  induction es generalizing acc with
  | nil => simp [buildLoop]
  | cons e rest ih =>
      by_cases h0 : e.name = ""
      · simp [buildLoop, h0, ih, expandEntry]
      · by_cases h1 : e.name ∈ snap.videos
        · simp [buildLoop, h0, h1, ih, expandEntry, List.append_assoc]
        · by_cases h2 : e.name ∈ snap.presentations
          · simp [buildLoop, h0, h1, h2, ih, expandEntry, List.append_assoc]
          · simp [buildLoop, h0, h1, h2, ih, expandEntry]

/-- Index of the last occurrence of a character in a character list. -/
def lastIdxOf (c : Char) : List Char → Option Nat
  | [] => none
  | x :: xs =>
      match lastIdxOf c xs with
      | some i => some (i + 1)
      | none => if x = c then some 0 else none

/-- Python pathlib stem of a file name: the name with its last suffix
removed; a leading or trailing dot does not start a suffix. -/
def pyStem (s : String) : String :=
  let cs := s.toList
  match lastIdxOf '.' cs with
  | some i => if 0 < i ∧ i + 1 < cs.length then String.mk (cs.take i) else s
  | none => s

/-- Python pathlib suffix of a file name (empty when there is none). -/
def pySuffix (s : String) : String :=
  let cs := s.toList
  match lastIdxOf '.' cs with
  | some i => if 0 < i ∧ i + 1 < cs.length then String.mk (cs.drop i) else ""
  | none => ""

/-- ASCII lowercase of one character (the only case the .lower()
calls in the source need for file suffixes). -/
def lowerChar (c : Char) : Char :=
  if 'A' ≤ c ∧ c ≤ 'Z' then Char.ofNat (c.toNat + 32) else c

/-- The .lower() string method restricted to ASCII. -/
def lowerAscii (s : String) : String :=
  String.mk (s.toList.map lowerChar)

/-- A playlist dict built by src/web_player.py: keys type, url, name
and, on image items only, duration. Video items built by
get_playlist_uncached carry no duration key, modelled by none. -/
structure WebItem where
  ty : String
  url : String
  name : String
  duration : Option Nat
deriving DecidableEq, Repr

/-- Models item.get(duration-key, 0). -/
def durOf (it : WebItem) : Nat := it.duration.getD 0

def mkWebVideo (n : String) : WebItem :=
  { ty := "video", url := "/content/videos/" ++ n, name := n, duration := none }

def mkWebSlide (stem fname : String) : WebItem :=
  { ty := "image", url := "/content/slides/" ++ stem ++ "/" ++ fname,
    name := fname, duration := some 10 }

/-- Fixed snapshot of the directories src/web_player.py reads: the
recognized video file names, and the slides cache directory as an
association list from presentation stem to its sorted slide files. -/
structure WebSnapshot where
  videos : List String
  cacheDirs : List (String × List String)

/-- Models pres_dir.exists() and pres_dir.is_dir() plus the sorted
slide glob for SLIDES_CACHE_DIR/stem. -/
def slideDirLookup (snap : WebSnapshot) (stem : String) : Option (List String) :=
  snap.cacheDirs.lookup stem

/-- Contribution of one normalized entry to the web playlist
(src/web_player.py lines 101-130): videos expand to repeats copies;
other names are treated as presentations and expand, per repeat, to
every cached slide of their stem; names with no backing file or cache
directory contribute nothing. -/
def webExpandEntry (snap : WebSnapshot) (e : PlaylistEntry) : List WebItem :=
  if e.name = "" then []
  else if e.name ∈ snap.videos then
    List.replicate e.repeats (mkWebVideo e.name)
  else
    match slideDirLookup snap (pyStem e.name) with
    | some files =>
        List.flatten (List.replicate e.repeats (files.map (mkWebSlide (pyStem e.name))))
    | none => []

/-- The entry loop of get_playlist_uncached, threading the playlist
accumulator. -/
def webBuildLoop (snap : WebSnapshot) (es : List PlaylistEntry) (acc : List WebItem) : List WebItem :=
  match es with
  | [] => acc
  | e :: rest =>
      if e.name = "" then webBuildLoop snap rest acc
      else if e.name ∈ snap.videos then
        webBuildLoop snap rest (acc ++ List.replicate e.repeats (mkWebVideo e.name))
      else
        match slideDirLookup snap (pyStem e.name) with
        | some files =>
            webBuildLoop snap rest
              (acc ++ List.flatten (List.replicate e.repeats (files.map (mkWebSlide (pyStem e.name)))))
        | none => webBuildLoop snap rest acc

/-- Fallback branch of get_playlist_uncached: all videos, then every
slide of every cache directory in sorted order. -/
def webFallbackItems (snap : WebSnapshot) : List WebItem :=
  snap.videos.map mkWebVideo ++
    (snap.cacheDirs.map (fun p => p.2.map (mkWebSlide p.1))).flatten

/-- get_playlist_uncached (src/web_player.py lines 67-150) applied to
the normalized entry list and a fixed directory snapshot. -/
def get_playlist_uncached (snap : WebSnapshot) (selected : List PlaylistEntry) : List WebItem :=
  if selected.isEmpty then webFallbackItems snap
  else webBuildLoop snap selected []

theorem webBuildLoop_eq_flatten (snap : WebSnapshot) (es : List PlaylistEntry) (acc : List WebItem) :
    webBuildLoop snap es acc = acc ++ (es.map (webExpandEntry snap)).flatten := by
  induction es generalizing acc with
  | nil => simp [webBuildLoop]
  | cons e rest ih =>
      by_cases h0 : e.name = ""
      · simp [webBuildLoop, h0, ih, webExpandEntry]
      · by_cases h1 : e.name ∈ snap.videos
        · simp [webBuildLoop, h0, h1, ih, webExpandEntry, List.append_assoc]
        · cases h2 : slideDirLookup snap (pyStem e.name) with
          | some files =>
              simp [webBuildLoop, h0, h1, h2, ih, webExpandEntry, List.append_assoc]
          | none => simp [webBuildLoop, h0, h1, h2, ih, webExpandEntry]

/-- calculate_total_duration (src/web_player.py lines 230-231). -/
def calculate_total_duration (pl : List WebItem) : Nat :=
  (pl.map durOf).sum

/-- The accumulation walk of get_current_item_index (src/web_player.py
lines 239-246). -/
def itemIndexLoop : List WebItem → Nat → Nat → Nat → Nat × Nat
  | [], _, _, _ => (0, 0)
  | it :: rest, pos, cum, idx =>
      if cum + durOf it > pos then (idx, pos - cum)
      else itemIndexLoop rest pos (cum + durOf it) (idx + 1)

/-- get_current_item_index (src/web_player.py lines 233-246). Elapsed
time and durations are modelled as naturals, matching the nonnegative
integral values reachable from build_playlist_with_durations. -/
def get_current_item_index (pl : List WebItem) (elapsed : Nat) : Nat × Nat :=
  let total := calculate_total_duration pl
  if total = 0 then (0, 0)
  else itemIndexLoop pl (elapsed % total) 0 0

/-- Cumulative duration of the first k items. -/
def cumDur (pl : List WebItem) (k : Nat) : Nat :=
  ((pl.take k).map durOf).sum

theorem cumDur_zero (pl : List WebItem) : cumDur pl 0 = 0 := by
  simp [cumDur]

theorem cumDur_succ_cons (it : WebItem) (rest : List WebItem) (k : Nat) :
    cumDur (it :: rest) (k + 1) = durOf it + cumDur rest k := by
  simp [cumDur]

theorem itemIndexLoop_spec (pl : List WebItem) :
    ∀ (pos cum idx : Nat), cum ≤ pos → pos < cum + (pl.map durOf).sum →
    ∃ i, itemIndexLoop pl pos cum idx = (idx + i, pos - (cum + cumDur pl i)) ∧
      i < pl.length ∧ cum + cumDur pl i ≤ pos ∧ pos < cum + cumDur pl (i + 1) ∧
      ∀ j, j < i → cum + cumDur pl (j + 1) ≤ pos := by
  induction pl with
  | nil =>
      intro pos cum idx hle hlt
      simp at hlt
      omega
  | cons it rest ih =>
      intro pos cum idx hle hlt
      by_cases hc : cum + durOf it > pos
      · refine ⟨0, ?_, ?_, ?_, ?_, ?_⟩
        · simp [itemIndexLoop, hc, cumDur_zero]
        · simp
        · rw [cumDur_zero]; omega
        · rw [cumDur_succ_cons, cumDur_zero]; omega
        · intro j hj; omega
      · have hle2 : cum + durOf it ≤ pos := by omega
        have hlt2 : pos < (cum + durOf it) + (rest.map durOf).sum := by
          simp at hlt; omega
        obtain ⟨i, hEq, hLen, hLow, hHigh, hFirst⟩ := ih pos (cum + durOf it) (idx + 1) hle2 hlt2
        refine ⟨i + 1, ?_, ?_, ?_, ?_, ?_⟩
        · rw [itemIndexLoop, if_neg hc, hEq, cumDur_succ_cons]
          simp only [Prod.mk.injEq]
          constructor
          · omega
          · congr 1; omega
        · simpa using hLen
        · rw [cumDur_succ_cons]; omega
        · rw [cumDur_succ_cons]; omega
        · intro j hj
          cases j with
          | zero => rw [cumDur_succ_cons, cumDur_zero]; omega
          | succ j =>
              have h2 := hFirst j (by omega)
              rw [cumDur_succ_cons]
              omega

/-- The walk result depends only on the duration sequence. -/
theorem itemIndexLoop_congr : ∀ (pl pl2 : List WebItem) (pos cum idx : Nat),
    pl.map durOf = pl2.map durOf →
    itemIndexLoop pl pos cum idx = itemIndexLoop pl2 pos cum idx := by
  intro pl
  induction pl with
  | nil =>
      intro pl2 pos cum idx h
      cases pl2 with
      | nil => rfl
      | cons b bs => simp at h
  | cons a as ih =>
      intro pl2 pos cum idx h
      cases pl2 with
      | nil => simp at h
      | cons b bs =>
          simp only [List.map_cons, List.cons.injEq] at h
          rw [itemIndexLoop, itemIndexLoop, h.1]
          by_cases hc : cum + durOf b > pos
          · simp [hc]
          · simp only [hc, if_neg, ite_false]
            exact ih bs pos (cum + durOf b) (idx + 1) h.2

theorem get_current_item_index_congr (pl pl2 : List WebItem) (elapsed : Nat)
    (h : pl.map durOf = pl2.map durOf) :
    get_current_item_index pl elapsed = get_current_item_index pl2 elapsed := by
  have ht : calculate_total_duration pl = calculate_total_duration pl2 := by
    unfold calculate_total_duration
    rw [h]
  unfold get_current_item_index
  rw [ht]
  by_cases h0 : calculate_total_duration pl2 = 0
  · simp [h0]
  · simp only [h0, if_neg, ite_false]
    exact itemIndexLoop_congr pl pl2 _ 0 0 h

/-- item_exists (src/dashboard.py lines 201-215): true when the name is
nonempty and a file of that name is present in the videos or the
presentations directory of the snapshot. -/
def item_exists (snap : Snapshot) (n : String) : Bool :=
  if n = "" then false
  else decide (n ∈ snap.videos) || decide (n ∈ snap.presentations)

/-- The accumulation loop of filter_valid_playlist over the normalized
entries, producing kept entries and removed names in input order. -/
def filterValidLoop (snap : Snapshot) (es : List PlaylistEntry) : List PlaylistEntry × List String :=
  match es with
  | [] => ([], [])
  | e :: rest =>
      let r := filterValidLoop snap rest
      if e.name ≠ "" ∧ item_exists snap e.name then (e :: r.1, r.2)
      else if e.name ≠ "" then (r.1, e.name :: r.2)
      else r

/-- filter_valid_playlist (src/dashboard.py lines 218-234): normalize,
keep entries whose file still exists, report the names of the rest. -/
def filter_valid_playlist (snap : Snapshot) (raw : JValue) : List PlaylistEntry × List String :=
  filterValidLoop snap (normalize_playlist_to_objects raw)

/-- Re-encoding of a normalized playlist as the JSON value
write_playlist persists (a list of objects with name and repeats). -/
def encodeEntry (e : PlaylistEntry) : JEntry :=
  JEntry.jobj (some e.name) none (some (RepVal.rint (e.repeats : Int)))

def encodeEntries (es : List PlaylistEntry) : JValue :=
  JValue.jlist (es.map encodeEntry)

theorem filterValidLoop_valid_mem {snap : Snapshot} {es : List PlaylistEntry}
    {e : PlaylistEntry} (h : e ∈ (filterValidLoop snap es).1) :
    e ∈ es ∧ e.name ≠ "" ∧ item_exists snap e.name = true := by
  induction es with
  | nil => simp [filterValidLoop] at h
  | cons x rest ih =>
      by_cases h1 : x.name ≠ "" ∧ item_exists snap x.name
      · rw [filterValidLoop, if_pos h1] at h
        rcases List.mem_cons.mp h with h2 | h2
        · subst h2; exact ⟨List.mem_cons_self _ _, h1⟩
        · obtain ⟨hm, hrest⟩ := ih h2
          exact ⟨List.mem_cons_of_mem _ hm, hrest⟩
      · rw [filterValidLoop, if_neg h1] at h
        by_cases h2 : x.name ≠ ""
        · rw [if_pos h2] at h
          obtain ⟨hm, hrest⟩ := ih h
          exact ⟨List.mem_cons_of_mem _ hm, hrest⟩
        · rw [if_neg h2] at h
          obtain ⟨hm, hrest⟩ := ih h
          exact ⟨List.mem_cons_of_mem _ hm, hrest⟩

theorem normLoop_encode (es : List PlaylistEntry)
    (h : ∀ e ∈ es, e.name ≠ "" ∧ 1 ≤ e.repeats) :
    normLoop (es.map encodeEntry) = es := by
  induction es with
  | nil => rfl
  | cons e rest ih =>
      obtain ⟨hn, hr⟩ := h e (List.mem_cons_self _ _)
      have hname : firstTruthy (some e.name) none = some e.name := by
        simp [firstTruthy, truthyStr, hn]
      have hrep : (max 1 (repInt (some (RepVal.rint (e.repeats : Int))))).toNat = e.repeats := by
        simp only [repInt]
        have : max 1 (e.repeats : Int) = (e.repeats : Int) := by omega
        rw [this]
        exact Int.toNat_natCast e.repeats
      simp only [List.map_cons, normLoop, normalizeEntry, encodeEntry, hname, hrep]
      rw [ih (fun x hx => h x (List.mem_cons_of_mem _ hx))]

theorem filterValidLoop_stable (snap : Snapshot) (es : List PlaylistEntry)
    (h : ∀ e ∈ es, e.name ≠ "" ∧ item_exists snap e.name = true) :
    filterValidLoop snap es = (es, []) := by
  induction es with
  | nil => rfl
  | cons e rest ih =>
      have he := h e (List.mem_cons_self _ _)
      rw [filterValidLoop, ih (fun x hx => h x (List.mem_cons_of_mem _ hx)), if_pos he]

theorem filterValidLoop_removed_mem {snap : Snapshot} {es : List PlaylistEntry}
    {e : PlaylistEntry} (hm : e ∈ es) (hn : e.name ≠ "")
    (hx : item_exists snap e.name = false) :
    e.name ∈ (filterValidLoop snap es).2 := by
  induction es with
  | nil => simp at hm
  | cons x rest ih =>
      rcases List.mem_cons.mp hm with h1 | h1
      · subst h1
        have h2 : ¬(e.name ≠ "" ∧ item_exists snap e.name) := by
          intro hcon
          rw [hx] at hcon
          exact Bool.false_ne_true hcon.2
        rw [filterValidLoop, if_neg h2, if_pos hn]
        exact List.mem_cons_self _ _
      · by_cases h2 : x.name ≠ "" ∧ item_exists snap x.name
        · rw [filterValidLoop, if_pos h2]
          exact ih h1
        · by_cases h3 : x.name ≠ ""
          · rw [filterValidLoop, if_neg h2, if_pos h3]
            exact List.mem_cons_of_mem _ (ih h1)
          · rw [filterValidLoop, if_neg h2, if_neg h3]
            exact ih h1

/-- Insertion of a string into a sorted list. -/
def insertStr (s : String) : List String → List String
  | [] => [s]
  | x :: xs => if s ≤ x then s :: x :: xs else x :: insertStr s xs

/-- The sorted() builtin applied to the glob result of a cache
directory. -/
def sortStrings : List String → List String
  | [] => []
  | x :: xs => insertStr x (sortStrings xs)

theorem insertStr_ne_nil (s : String) (l : List String) : insertStr s l ≠ [] := by
  cases l with
  | nil => simp [insertStr]
  | cons x xs =>
      rw [insertStr]
      by_cases h : s ≤ x
      · simp [h]
      · simp [h]

theorem sortStrings_eq_nil_iff (l : List String) : sortStrings l = [] ↔ l = [] := by
  cases l with
  | nil => simp [sortStrings]
  | cons x xs =>
      simp only [sortStrings]
      constructor
      · intro h
        exact absurd h (insertStr_ne_nil x (sortStrings xs))
      · intro h
        exact absurd h (by simp)

/-- State of the slides cache directory tree: for each document stem,
none when the per-document directory is absent, or the list of
slide PNG files it currently holds. -/
def CacheState : Type := String → Option (List String)

/-- External world of the conversion tools for a fixed run: which PNG
files an ImageMagick convert invocation writes for a given PDF path
before exiting, whether that invocation finishes in time with exit
status zero, whether a LibreOffice invocation on a given document
finishes in time with status zero, and whether it actually produced
the expected PDF. These are the observable effects of the
subprocess.run calls in src/presentation_converter.py. -/
structure ConvWorld where
  pdfToolFiles : String → List String
  pdfToolOk : String → Bool
  pptxToolOk : String → Bool
  pptxPdfProduced : String → Bool

/-- get_cache_path keyed by stem (src/presentation_converter.py 21-23). -/
def get_cache_path (doc : String) : String := pyStem doc

/-- is_cached (src/presentation_converter.py lines 25-30): the cache
directory exists and holds at least one slide PNG. -/
def is_cached (st : CacheState) (doc : String) : Bool :=
  match st (get_cache_path doc) with
  | none => false
  | some l => decide (0 < l.length)

/-- mkdir(parents=True, exist_ok=True) on the cache directory. -/
def mkdirCache (key : String) (st : CacheState) : CacheState :=
  fun k => if k = key then some ((st k).getD []) else st k

/-- Path of the intermediate PDF LibreOffice writes into the cache
directory for a slide deck. -/
def pptxPdfPath (key : String) : String := key ++ "/" ++ key ++ ".pdf"

/-- convert_pdf_to_png (src/presentation_converter.py lines 41-48):
the convert subprocess writes whatever files it writes into the
directory, then the call raises on timeout or nonzero exit (modelled
by pdfToolOk = false) or when the glob finds no PNG; otherwise it
returns the sorted glob. -/
def convert_pdf_to_png (w : ConvWorld) (pdfFile key : String) (st : CacheState) :
    Except Unit (List String) × CacheState :=
  let contents := (st key).getD [] ++ w.pdfToolFiles pdfFile
  let st1 : CacheState := fun k => if k = key then some contents else st k
  if w.pdfToolOk pdfFile = false then (Except.error (), st1)
  else if sortStrings contents = [] then (Except.error (), st1)
  else (Except.ok (sortStrings contents), st1)

/-- convert_pdf (src/presentation_converter.py lines 67-77): any raise
inside is caught and an empty list returned. -/
def convert_pdf (w : ConvWorld) (doc : String) (st : CacheState) :
    List String × CacheState :=
  let key := get_cache_path doc
  let st0 := mkdirCache key st
  match convert_pdf_to_png w doc key st0 with
  | (Except.ok files, st1) => (files, st1)
  | (Except.error _, st1) => ([], st1)

/-- convert_pptx (src/presentation_converter.py lines 50-65): a failed
or PDF-less LibreOffice run raises before any PNG is produced; the
intermediate PDF unlink does not touch slide PNGs. -/
def convert_pptx (w : ConvWorld) (doc : String) (st : CacheState) :
    List String × CacheState :=
  let key := get_cache_path doc
  let st0 := mkdirCache key st
  if w.pptxToolOk doc = false then ([], st0)
  else if w.pptxPdfProduced doc = false then ([], st0)
  else
    match convert_pdf_to_png w (pptxPdfPath key) key st0 with
    | (Except.ok files, st1) => (files, st1)
    | (Except.error _, st1) => ([], st1)

/-- convert_presentation (src/presentation_converter.py lines 79-87),
with a counter of conversion-pipeline invocations (0 when the suffix
is unsupported and no tool can run). -/
def convert_presentation (w : ConvWorld) (doc : String) (st : CacheState) :
    List String × CacheState × Nat :=
  let ext := lowerAscii (pySuffix doc)
  if ext = ".pptx" ∨ ext = ".ppt" then
    let r := convert_pptx w doc st
    (r.1, r.2, 1)
  else if ext = ".pdf" then
    let r := convert_pdf w doc st
    (r.1, r.2, 1)
  else ([], st, 0)

/-- get_slides (src/player.py lines 115-119): convert when not cached,
then return the sorted glob of the cache directory. The third
component counts conversion-pipeline invocations made by the call. -/
def get_slides (w : ConvWorld) (doc : String) (st : CacheState) :
    List String × CacheState × Nat :=
  if is_cached st doc then
    (sortStrings ((st (get_cache_path doc)).getD []), st, 0)
  else
    let r := convert_presentation w doc st
    (sortStrings ((r.2.1 (get_cache_path doc)).getD []), r.2.1, r.2.2)

/-- The PNG files a conversion pass appends to the cache directory of
doc, as a function of the world alone. -/
def producedPngs (w : ConvWorld) (doc : String) : List String :=
  let ext := lowerAscii (pySuffix doc)
  if ext = ".pptx" ∨ ext = ".ppt" then
    if w.pptxToolOk doc && w.pptxPdfProduced doc then
      w.pdfToolFiles (pptxPdfPath (get_cache_path doc))
    else []
  else if ext = ".pdf" then w.pdfToolFiles doc
  else []

/-- Failure of a conversion pass on an uncached document: tool timeout
or nonzero exit anywhere in the pipeline, a missing intermediate PDF,
or zero PNG output files. -/
def conversionFails (w : ConvWorld) (doc : String) : Bool :=
  let ext := lowerAscii (pySuffix doc)
  if ext = ".pptx" ∨ ext = ".ppt" then
    !w.pptxToolOk doc || !w.pptxPdfProduced doc ||
      !w.pdfToolOk (pptxPdfPath (get_cache_path doc)) || (producedPngs w doc).isEmpty
  else if ext = ".pdf" then
    !w.pdfToolOk doc || (w.pdfToolFiles doc).isEmpty
  else false

theorem is_cached_false_entry {st : CacheState} {doc : String}
    (h : is_cached st doc = false) : (st (get_cache_path doc)).getD [] = [] := by
  unfold is_cached at h
  cases hs : st (get_cache_path doc) with
  | none => simp [hs]
  | some l =>
      rw [hs] at h
      simp at h
      simp [hs, h]

theorem convert_presentation_entry (w : ConvWorld) (doc : String) (st : CacheState) :
    (convert_presentation w doc st).2.1 (get_cache_path doc) =
      (if lowerAscii (pySuffix doc) = ".pptx" ∨ lowerAscii (pySuffix doc) = ".ppt" ∨
          lowerAscii (pySuffix doc) = ".pdf"
       then some ((st (get_cache_path doc)).getD [] ++ producedPngs w doc)
       else st (get_cache_path doc)) := by
  by_cases h1 : lowerAscii (pySuffix doc) = ".pptx" ∨ lowerAscii (pySuffix doc) = ".ppt"
  · have hcond : lowerAscii (pySuffix doc) = ".pptx" ∨ lowerAscii (pySuffix doc) = ".ppt" ∨
        lowerAscii (pySuffix doc) = ".pdf" := by tauto
    rw [if_pos hcond]
    simp only [convert_presentation, if_pos h1, producedPngs, convert_pptx]
    by_cases h2 : w.pptxToolOk doc = false
    · simp [h2, mkdirCache, h1]
    · have h2t : w.pptxToolOk doc = true := by
        cases hb : w.pptxToolOk doc
        · exact absurd hb h2
        · rfl
      by_cases h3 : w.pptxPdfProduced doc = false
      · simp [h2, h3, mkdirCache, h1, h2t]
      · have h3t : w.pptxPdfProduced doc = true := by
          cases hb : w.pptxPdfProduced doc
          · exact absurd hb h3
          · rfl
        simp only [h2, h3, if_neg, ite_false, convert_pdf_to_png, mkdirCache]
        by_cases h4 : w.pdfToolOk (pptxPdfPath (get_cache_path doc)) = false
        · simp [h4, h1, h2t, h3t]
        · by_cases h5 :
            sortStrings (((st (get_cache_path doc)).getD []) ++
              w.pdfToolFiles (pptxPdfPath (get_cache_path doc))) = []
          · simp only [if_neg h4]
            simp [h5, h1, h2t, h3t]
          · simp only [if_neg h4]
            simp [h5, h1, h2t, h3t]
  · by_cases h2 : lowerAscii (pySuffix doc) = ".pdf"
    · have hcond : lowerAscii (pySuffix doc) = ".pptx" ∨ lowerAscii (pySuffix doc) = ".ppt" ∨
          lowerAscii (pySuffix doc) = ".pdf" := Or.inr (Or.inr h2)
      rw [if_pos hcond]
      simp only [convert_presentation, if_neg h1, if_pos h2, convert_pdf,
        convert_pdf_to_png, mkdirCache, producedPngs]
      by_cases h4 : w.pdfToolOk doc = false
      · simp [h4, h1, h2]
      · by_cases h5 : sortStrings (((st (get_cache_path doc)).getD []) ++ w.pdfToolFiles doc) = []
        · simp only [if_neg h4]
          simp [h5, h1, h2]
        · simp only [if_neg h4]
          simp [h5, h1, h2]
    · have hcond : ¬(lowerAscii (pySuffix doc) = ".pptx" ∨ lowerAscii (pySuffix doc) = ".ppt" ∨
          lowerAscii (pySuffix doc) = ".pdf") := by tauto
      rw [if_neg hcond]
      simp [convert_presentation, h1, h2]

theorem convert_presentation_calls_le (w : ConvWorld) (doc : String) (st : CacheState) :
    (convert_presentation w doc st).2.2 ≤ 1 := by
  unfold convert_presentation
  by_cases h1 : lowerAscii (pySuffix doc) = ".pptx" ∨ lowerAscii (pySuffix doc) = ".ppt"
  · simp [h1]
  · by_cases h2 : lowerAscii (pySuffix doc) = ".pdf"
    · simp [h1, h2]
    · simp [h1, h2]

/-- Content of the controller command mailbox file, as json.loads sees
it: a parseable JSON object whose action key may be present or not, or
an unparseable file (json.loads raises, the except branch substitutes
the empty dict, whose action is None). -/
inductive MailMsg where
  | parseable (action : Option String)
  | unparseable
deriving DecidableEq, Repr

/-- In-memory and file-system state of the SmartPlaylistPlayer
controller relevant to command processing: the single-slot mailbox
file, the ordering file (none when absent), the directory snapshot,
the generated player playlist file, the player process and its
suspended flag, and the pending_update flag. -/
structure PState where
  mailbox : Option MailMsg
  ordering : Option JValue
  snap : Snapshot
  playlistFile : List PlayItem
  vlcRunning : Bool
  vlcPaused : Bool
  pending : Bool

/-- The ContentSet the controller would resolve right now:
build_playlist_items applied to the normalized ordering file. -/
def stateItems (st : PState) : List PlayItem :=
  build_playlist_items st.snap
    (match st.ordering with
     | some v => normalize_playlist_to_objects v
     | none => [])

/-- next: items.pop(0) then items.append(first). -/
def rotate_next : List PlayItem → List PlayItem
  | [] => []
  | x :: xs => xs ++ [x]

/-- prev: last = items.pop() then items.insert(0, last). -/
def rotate_prev : List PlayItem → List PlayItem
  | [] => []
  | x :: xs => (x :: xs).getLast (by simp) :: (x :: xs).dropLast

/-- The action dispatch of process_commands_if_any (src/player.py lines
285-316), running after the command file has been removed. -/
def applyAction (a : Option String) (st : PState) : PState :=
  if a = some "pause" then
    (if st.vlcRunning then { st with vlcPaused := true } else st)
  else if a = some "play" then
    (if st.vlcRunning then { st with vlcPaused := false } else st)
  else if a = some "next" ∨ a = some "prev" then
    (let items := stateItems st
     if items.isEmpty then st
     else
       { st with
           playlistFile := if a = some "next" then rotate_next items else rotate_prev items,
           vlcRunning := true, vlcPaused := false })
  else st

/-- process_commands_if_any (src/player.py lines 269-318): when a
command file exists it is read, parsed (an unparseable file becoming
the empty dict, hence action None), unlinked, and only then acted on. -/
def process_commands_if_any (st : PState) : PState :=
  match st.mailbox with
  | none => st
  | some msg =>
      let action : Option String :=
        match msg with
        | MailMsg.parseable a => a
        | MailMsg.unparseable => none
      applyAction action { st with mailbox := none }

theorem applyAction_mailbox (a : Option String) (st : PState) :
    (applyAction a st).mailbox = st.mailbox := by
  unfold applyAction
  by_cases h1 : a = some "pause"
  · simp only [if_pos h1]
    by_cases h : st.vlcRunning <;> simp [h]
  · rw [if_neg h1]
    by_cases h2 : a = some "play"
    · simp only [if_pos h2]
      by_cases h : st.vlcRunning <;> simp [h]
    · rw [if_neg h2]
      by_cases h3 : a = some "next" ∨ a = some "prev"
      · simp only [if_pos h3]
        by_cases h : (stateItems st).isEmpty <;> simp [h]
      · rw [if_neg h3]

theorem stateItems_mailbox_erased (st : PState) :
    stateItems { st with mailbox := none } = stateItems st := rfl

/-- Payload of the web mailbox command file, as parsed by json.loads:
an action and a timestamp, either possibly missing. -/
structure CmdPayload where
  action : Option String
  ts : Option Int
deriving DecidableEq, Repr

/-- Content of the web command mailbox file commands/web.json. -/
inductive WebMsg where
  | parseable (v : CmdPayload)
  | unparseable
deriving DecidableEq, Repr

/-- The command value api_command returns: the parsed payload, or the
empty dict substituted for an unparseable file. -/
inductive CmdContent where
  | payload (v : CmdPayload)
  | emptyObj
deriving DecidableEq, Repr

/-- File-system state the Stream Server command relay reads. -/
structure WebRelayState where
  webMailbox : Option WebMsg
deriving DecidableEq, Repr

/-- JSON response of the api_command route. -/
structure CmdResponse where
  ok : Bool
  command : Option CmdContent
deriving DecidableEq, Repr

def readContent (m : WebMsg) : CmdContent :=
  match m with
  | WebMsg.parseable v => CmdContent.payload v
  | WebMsg.unparseable => CmdContent.emptyObj

/-- api_command (src/web_player.py lines 429-444): reads the relay
mailbox if present and returns its content, never deleting the file;
the returned state is the file-system state after the request. -/
def api_command (st : WebRelayState) : CmdResponse × WebRelayState :=
  match st.webMailbox with
  | some m => ({ ok := true, command := some (readContent m) }, st)
  | none => ({ ok := true, command := none }, st)

/-- Hash of one Python string. Modelled from the spec: the fingerprint
in src/player.py get_playlist_hash is the Python builtin hash of a
tuple of path strings; the builtin is runtime code outside src/,
described by the spec only as a deterministic, order-sensitive,
process-local, fixed-width digest of the source identities, so any
concrete 64-bit string digest is a faithful stand-in. -/
def pyStrHash (s : String) : Nat :=
  s.foldl (fun h c => (h * 31 + c.toNat) % (2 ^ 64)) 7

/-- Modelled from the spec: Python builtin hash of a tuple of strings,
a deterministic combination of the element hashes reduced to a 64-bit
value. -/
def pyTupleHash (xs : List String) : Fin (2 ^ 64) :=
  ⟨xs.foldl (fun h s => (h * 1000003 + pyStrHash s) % (2 ^ 64)) 5381 % (2 ^ 64),
    Nat.mod_lt _ (by norm_num)⟩

/-- get_playlist_hash (src/player.py lines 245-246):
hash(tuple(str(item path) for item in items)). -/
def get_playlist_hash (items : List PlayItem) : Fin (2 ^ 64) :=
  pyTupleHash (items.map (fun i => i.path))

theorem normalized_repeats_pos {raw : JValue} {e : PlaylistEntry}
    (h : e ∈ normalize_playlist_to_objects raw) : 1 ≤ e.repeats := by
  cases raw with
  | jlist es => exact normLoop_repeats_pos h
  | jnonlist => simp [normalize_playlist_to_objects] at h

/-- C10: normalization clamps the repeat count from below: an object
entry whose repeats value is below 1, or whose repeats value int()
cannot parse, is normalized to repeats = 1; an object entry with no
truthy name or filename key is dropped entirely; and an ordering file
whose top-level JSON value is not a list normalizes to the empty
ordering. -/
theorem c10_normalization_clamps_and_drops :
    (∀ (nm fn : Option String) (rv : Option RepVal) (n : String),
        firstTruthy nm fn = some n → repInt rv ≤ 0 →
        normalizeEntry (JEntry.jobj nm fn rv) = some { name := n, repeats := 1 }) ∧
    (∀ (nm fn : Option String) (n : String),
        firstTruthy nm fn = some n →
        normalizeEntry (JEntry.jobj nm fn (some RepVal.rbad)) =
          some { name := n, repeats := 1 }) ∧
    (∀ (nm fn : Option String) (rv : Option RepVal),
        firstTruthy nm fn = none →
        normalizeEntry (JEntry.jobj nm fn rv) = none) ∧
    (∀ es, normalize_playlist_to_objects (JValue.jlist es) = es.filterMap normalizeEntry) ∧
    normalize_playlist_to_objects JValue.jnonlist = [] := by
  refine ⟨?_, ?_, ?_, ?_, rfl⟩
  · intro nm fn rv n h hle
    have hmax : max 1 (repInt rv) = 1 := by omega
    simp [normalizeEntry, h, hmax]
  · intro nm fn n h
    simp [normalizeEntry, h, repInt]
  · intro nm fn rv h
    simp [normalizeEntry, h]
  · intro es
    exact normLoop_eq_filterMap es

theorem c10_normalization_witness :
    firstTruthy (some "a.mp4") none = some "a.mp4" ∧
    repInt (some (RepVal.rint 0)) ≤ 0 ∧
    normalizeEntry (JEntry.jobj (some "a.mp4") none (some (RepVal.rint 0))) =
      some { name := "a.mp4", repeats := 1 } :=
  ⟨by decide, by decide,
    c10_normalization_clamps_and_drops.1 (some "a.mp4") none (some (RepVal.rint 0))
      "a.mp4" (by decide) (by decide)⟩

/-- Concrete sync playlist with durations 30, 10, 10, of the shape
build_playlist_with_durations produces. -/
def demoSyncPlaylist : List WebItem :=
  [{ ty := "video", url := "/content/videos/a.mp4", name := "a.mp4", duration := some 30 },
   { ty := "image", url := "/content/slides/deck/slide_000.png", name := "slide_000.png",
     duration := some 10 },
   { ty := "image", url := "/content/slides/deck/slide_001.png", name := "slide_001.png",
     duration := some 10 }]

/-- C1: the synchronized-position computation on any playlist with
durations 30, 10, 10 maps elapsed 5, 35, 49, 125 to (0,5), (1,5),
(2,9), (0,25); any playlist of total duration 0 maps to (0,0); and in
general position = elapsed mod total, the current item is the first
whose cumulative upper bound exceeds the position, and the offset is
the position minus that cumulative lower bound. -/
theorem c1_position_at_spec :
    (∀ pl : List WebItem, pl.map durOf = [30, 10, 10] →
        get_current_item_index pl 5 = (0, 5) ∧
        get_current_item_index pl 35 = (1, 5) ∧
        get_current_item_index pl 49 = (2, 9) ∧
        get_current_item_index pl 125 = (0, 25)) ∧
    (∀ (pl : List WebItem) (e : Nat), calculate_total_duration pl = 0 →
        get_current_item_index pl e = (0, 0)) ∧
    (∀ (pl : List WebItem) (e : Nat), calculate_total_duration pl ≠ 0 →
        ∃ i, get_current_item_index pl e =
            (i, e % calculate_total_duration pl - cumDur pl i) ∧
          i < pl.length ∧
          cumDur pl i ≤ e % calculate_total_duration pl ∧
          e % calculate_total_duration pl < cumDur pl (i + 1) ∧
          ∀ j, j < i → cumDur pl (j + 1) ≤ e % calculate_total_duration pl) := by
  refine ⟨?_, ?_, ?_⟩
  · intro pl h
    have hc : pl.map durOf = demoSyncPlaylist.map durOf := by
      rw [h]; rfl
    refine ⟨?_, ?_, ?_, ?_⟩ <;>
      rw [get_current_item_index_congr pl demoSyncPlaylist _ hc] <;> decide
  · intro pl e h
    simp [get_current_item_index, h]
  · intro pl e h
    have hpos : 0 < calculate_total_duration pl := Nat.pos_of_ne_zero h
    have hlt : e % calculate_total_duration pl < calculate_total_duration pl :=
      Nat.mod_lt _ hpos
    obtain ⟨i, hEq, hLen, hLow, hHigh, hFirst⟩ :=
      itemIndexLoop_spec pl (e % calculate_total_duration pl) 0 0 (Nat.zero_le _)
        (by
          have : (pl.map durOf).sum = calculate_total_duration pl := rfl
          omega)
    refine ⟨i, ?_, hLen, by omega, by omega, fun j hj => by have := hFirst j hj; omega⟩
    unfold get_current_item_index
    rw [if_neg h, hEq]
    simp

theorem c1_position_at_witness :
    demoSyncPlaylist.map durOf = [30, 10, 10] ∧
    get_current_item_index demoSyncPlaylist 125 = (0, 25) :=
  ⟨by decide, (c1_position_at_spec.1 demoSyncPlaylist (by decide)).2.2.2⟩

/-- C2: for a fixed directory snapshot, resolving a nonempty normalized
entry sequence yields the concatenation, in entry order, of each entry
expansion; a matching video entry expands to exactly repeats contiguous
copies of its item, and a matching presentation entry to repeats
contiguous copies of its full slide sequence. Both the local player
resolver and the web resolver have this shape. -/
theorem c2_resolution_order_and_repeats :
    (∀ (snap : Snapshot) (sel : List PlaylistEntry), sel ≠ [] →
        build_playlist_items snap sel = (sel.map (expandEntry snap)).flatten) ∧
    (∀ (wsnap : WebSnapshot) (sel : List PlaylistEntry), sel ≠ [] →
        get_playlist_uncached wsnap sel = (sel.map (webExpandEntry wsnap)).flatten) ∧
    (∀ (snap : Snapshot) (e : PlaylistEntry), e.name ≠ "" → e.name ∈ snap.videos →
        expandEntry snap e = List.replicate e.repeats (mkVideoItem e.name)) ∧
    (∀ (snap : Snapshot) (e : PlaylistEntry), e.name ≠ "" → e.name ∉ snap.videos →
        e.name ∈ snap.presentations →
        expandEntry snap e =
          List.flatten (List.replicate e.repeats ((snap.slides e.name).map mkSlideItem))) := by
  refine ⟨?_, ?_, ?_, ?_⟩
  · intro snap sel h
    have hne : sel.isEmpty = false := by
      cases sel with
      | nil => exact absurd rfl h
      | cons x xs => rfl
    rw [build_playlist_items, hne]
    simpa using buildLoop_eq_join snap sel []
  · intro wsnap sel h
    have hne : sel.isEmpty = false := by
      cases sel with
      | nil => exact absurd rfl h
      | cons x xs => rfl
    rw [get_playlist_uncached, hne]
    simpa using webBuildLoop_eq_flatten wsnap sel []
  · intro snap e h1 h2
    simp [expandEntry, h1, h2]
  · intro snap e h1 h2 h3
    simp [expandEntry, h1, h2, h3]

/-- Concrete content snapshot for the local player. -/
def demoSnap : Snapshot :=
  { videos := ["a.mp4"],
    presentations := ["deck.pdf"],
    slides := fun n =>
      if n = "deck.pdf" then ["cache/deck/slide_000.png", "cache/deck/slide_001.png"]
      else [] }

/-- Concrete normalized ordering with a repeated video, a
presentation, and an orphaned name. -/
def demoSel : List PlaylistEntry :=
  [{ name := "a.mp4", repeats := 2 },
   { name := "deck.pdf", repeats := 1 },
   { name := "ghost.mp4", repeats := 3 }]

theorem c2_resolution_witness :
    demoSel ≠ [] ∧
    build_playlist_items demoSnap demoSel = (demoSel.map (expandEntry demoSnap)).flatten :=
  ⟨by decide, c2_resolution_order_and_repeats.1 demoSnap demoSel (by decide)⟩

/-- C4: an ordering entry naming a file absent from both content
directories is reported as pruned, excluded from the kept ordering, is
gone after the pruned ordering is persisted and filtered again (so the
auto-heal removes it exactly once), and contributes nothing to the
resolved catalog. -/
theorem c4_orphan_pruned_once :
    ∀ (snap : Snapshot) (raw : JValue) (nm : String),
      nm ≠ "" → nm ∉ snap.videos → nm ∉ snap.presentations →
      ((∃ e ∈ normalize_playlist_to_objects raw, e.name = nm) →
          nm ∈ (filter_valid_playlist snap raw).2) ∧
      (∀ e ∈ (filter_valid_playlist snap raw).1, e.name ≠ nm) ∧
      filter_valid_playlist snap (encodeEntries (filter_valid_playlist snap raw).1) =
        ((filter_valid_playlist snap raw).1, []) ∧
      (∀ e : PlaylistEntry, e.name = nm → expandEntry snap e = []) := by
  intro snap raw nm hne hv hp
  have hex : item_exists snap nm = false := by
    unfold item_exists
    rw [if_neg hne]
    simp [hv, hp]
  refine ⟨?_, ?_, ?_, ?_⟩
  · rintro ⟨e, hm, he⟩
    have hname : e.name ≠ "" := by rw [he]; exact hne
    have hx : item_exists snap e.name = false := by rw [he]; exact hex
    have := filterValidLoop_removed_mem hm hname hx
    rw [he] at this
    exact this
  · intro e hm heq
    obtain ⟨_, _, hx⟩ := filterValidLoop_valid_mem hm
    rw [heq, hex] at hx
    exact Bool.false_ne_true hx
  · unfold filter_valid_playlist at *
    have hgood : ∀ e ∈ (filterValidLoop snap (normalize_playlist_to_objects raw)).1,
        e.name ≠ "" ∧ 1 ≤ e.repeats := by
      intro e hm
      obtain ⟨hmem, hn, _⟩ := filterValidLoop_valid_mem hm
      exact ⟨hn, normalized_repeats_pos hmem⟩
    have hnorm : normalize_playlist_to_objects
        (encodeEntries (filterValidLoop snap (normalize_playlist_to_objects raw)).1) =
        (filterValidLoop snap (normalize_playlist_to_objects raw)).1 := by
      unfold encodeEntries normalize_playlist_to_objects
      exact normLoop_encode _ hgood
    rw [hnorm]
    apply filterValidLoop_stable
    intro e hm
    obtain ⟨_, hn, hx⟩ := filterValidLoop_valid_mem hm
    exact ⟨hn, hx⟩
  · intro e he
    have h1 : ¬e.name = "" := by rw [he]; exact hne
    have h2 : e.name ∉ snap.videos := by rw [he]; exact hv
    have h3 : e.name ∉ snap.presentations := by rw [he]; exact hp
    simp [expandEntry, h1, h2, h3]

/-- Concrete raw ordering containing an orphaned name. -/
def demoRawOrdering : JValue :=
  JValue.jlist [JEntry.jstr "ghost.mp4", JEntry.jstr "a.mp4"]

theorem c4_orphan_witness :
    "ghost.mp4" ∈ (filter_valid_playlist demoSnap demoRawOrdering).2 ∧
    (∀ e ∈ (filter_valid_playlist demoSnap demoRawOrdering).1, e.name ≠ "ghost.mp4") := by
  have h := c4_orphan_pruned_once demoSnap demoRawOrdering "ghost.mp4"
    (by decide) (by decide) (by decide)
  exact ⟨h.1 (by decide), h.2.1⟩

/-- C3 counterexample: the fingerprint digest space is finite, so two
ContentSets that differ in membership (two distinct singleton paths)
can share a fingerprint; hence membership change does not always
change the fingerprint. The argument is a pigeonhole over the digest
codomain and holds for any fixed-width digest in place of the
modelled one. -/
theorem c3_fingerprint_collision :
    ∃ s t : String, s ≠ t ∧
      get_playlist_hash [mkVideoItem s] = get_playlist_hash [mkVideoItem t] := by
  obtain ⟨s, t, hne, heq⟩ :=
    Finite.exists_ne_map_eq_of_infinite
      (fun s : String => get_playlist_hash [mkVideoItem s])
  exact ⟨s, t, hne, heq⟩

/-- C3 (amended): the fingerprint is a deterministic function of the
ordered sequence of source identities (the item path strings): equal
ordered identities give equal fingerprints, and any fingerprint
difference reflects a difference in the ordered identities. Distinct
identity sequences give distinct fingerprints only with overwhelming
probability, not always, since the digest space is finite. -/
theorem c3_fingerprint_deterministic :
    (∀ p q : List PlayItem, p.map PlayItem.path = q.map PlayItem.path →
        get_playlist_hash p = get_playlist_hash q) ∧
    (∀ p q : List PlayItem, get_playlist_hash p ≠ get_playlist_hash q →
        p.map PlayItem.path ≠ q.map PlayItem.path) := by
  constructor
  · intro p q h
    unfold get_playlist_hash
    rw [show p.map (fun i => i.path) = q.map (fun i => i.path) from h]
  · intro p q h hcon
    apply h
    unfold get_playlist_hash
    rw [show p.map (fun i => i.path) = q.map (fun i => i.path) from hcon]

theorem c3_fingerprint_witness :
    ([mkVideoItem "a.mp4", mkVideoItem "b.mp4"].map PlayItem.path =
      [mkVideoItem "a.mp4", mkVideoItem "b.mp4"].map PlayItem.path) ∧
    get_playlist_hash [mkVideoItem "a.mp4", mkVideoItem "b.mp4"] =
      get_playlist_hash [mkVideoItem "a.mp4", mkVideoItem "b.mp4"] :=
  ⟨rfl, c3_fingerprint_deterministic.1 _ _ rfl⟩

theorem is_cached_false_cases {st : CacheState} {doc : String}
    (h : is_cached st doc = false) :
    st (get_cache_path doc) = none ∨ st (get_cache_path doc) = some [] := by
  cases hs : st (get_cache_path doc) with
  | none => exact Or.inl rfl
  | some l =>
      right
      unfold is_cached at h
      rw [hs] at h
      simp at h
      simp [h]

theorem get_slides_cached (w : ConvWorld) (doc : String) (st : CacheState)
    (h : is_cached st doc = true) :
    get_slides w doc st = (sortStrings ((st (get_cache_path doc)).getD []), st, 0) := by
  unfold get_slides
  rw [h]
  simp

theorem get_slides_not_cached (w : ConvWorld) (doc : String) (st : CacheState)
    (h : is_cached st doc = false) :
    get_slides w doc st =
      (sortStrings (((convert_presentation w doc st).2.1 (get_cache_path doc)).getD []),
        (convert_presentation w doc st).2.1, (convert_presentation w doc st).2.2) := by
  unfold get_slides
  rw [h]
  simp

theorem get_slides_result (w : ConvWorld) (doc : String) (st : CacheState) :
    (get_slides w doc st).1 =
      sortStrings (((get_slides w doc st).2.1 (get_cache_path doc)).getD []) := by
  by_cases h : is_cached st doc = true
  · rw [get_slides_cached w doc st h]
  · have hf : is_cached st doc = false := by
      revert h; cases is_cached st doc <;> simp
    rw [get_slides_not_cached w doc st hf]

theorem get_slides_calls_le (w : ConvWorld) (doc : String) (st : CacheState) :
    (get_slides w doc st).2.2 ≤ 1 := by
  by_cases h : is_cached st doc = true
  · rw [get_slides_cached w doc st h]
    exact Nat.zero_le 1
  · have hf : is_cached st doc = false := by
      revert h; cases is_cached st doc <;> simp
    rw [get_slides_not_cached w doc st hf]
    exact convert_presentation_calls_le w doc st

theorem convert_presentation_unsupported (w : ConvWorld) (doc : String) (st : CacheState)
    (h1 : ¬(lowerAscii (pySuffix doc) = ".pptx" ∨ lowerAscii (pySuffix doc) = ".ppt"))
    (h2 : lowerAscii (pySuffix doc) ≠ ".pdf") :
    convert_presentation w doc st = ([], st, 0) := by
  simp [convert_presentation, h1, h2]

theorem get_slides_final_entry (w : ConvWorld) (doc : String) (st : CacheState) :
    (get_slides w doc st).2.1 (get_cache_path doc) =
      (if is_cached st doc = true then st (get_cache_path doc)
       else if lowerAscii (pySuffix doc) = ".pptx" ∨ lowerAscii (pySuffix doc) = ".ppt" ∨
           lowerAscii (pySuffix doc) = ".pdf"
         then some (producedPngs w doc)
         else st (get_cache_path doc)) := by
  by_cases h : is_cached st doc = true
  · rw [get_slides_cached w doc st h, if_pos h]
  · have hf : is_cached st doc = false := by
      revert h; cases is_cached st doc <;> simp
    rw [get_slides_not_cached w doc st hf, if_neg h]
    have hpe := convert_presentation_entry w doc st
    rw [is_cached_false_entry hf] at hpe
    simp only [List.nil_append] at hpe
    exact hpe

/-- C5 (amended): if the cache entry already holds at least one image,
get_slides invokes no conversion and leaves the state unchanged; each
call invokes the pipeline at most once; the two calls return the same
ordered image sequence; and whenever the first call returns a
nonempty sequence the second call invokes no conversion at all. When
the first call leaves the entry empty (a failed conversion), the
second call does re-invoke the pipeline, so at-most-once across both
calls holds only in the nonempty case. -/
theorem c5_cache_reuse :
    ∀ (w : ConvWorld) (doc : String) (st : CacheState),
      (is_cached st doc = true →
        get_slides w doc st =
          (sortStrings ((st (get_cache_path doc)).getD []), st, 0)) ∧
      (get_slides w doc st).1 = (get_slides w doc (get_slides w doc st).2.1).1 ∧
      (get_slides w doc st).2.2 ≤ 1 ∧
      (get_slides w doc (get_slides w doc st).2.1).2.2 ≤ 1 ∧
      ((get_slides w doc st).1 ≠ [] →
        (get_slides w doc (get_slides w doc st).2.1).2.2 = 0) := by
  intro w doc st
  refine ⟨fun h => get_slides_cached w doc st h, ?_, get_slides_calls_le w doc st,
    get_slides_calls_le w doc _, ?_⟩
  · -- both calls return the same sequence
    by_cases hc2 : is_cached (get_slides w doc st).2.1 doc = true
    · rw [get_slides_cached w doc _ hc2, get_slides_result w doc st]
    · have hf2 : is_cached (get_slides w doc st).2.1 doc = false := by
        revert hc2; cases is_cached (get_slides w doc st).2.1 doc <;> simp
      have he1 : ((get_slides w doc st).2.1 (get_cache_path doc)).getD [] = [] :=
        is_cached_false_entry hf2
      have hr1 : (get_slides w doc st).1 = [] := by
        rw [get_slides_result w doc st, he1]
        rfl
      have he2 := get_slides_final_entry w doc (get_slides w doc st).2.1
      rw [if_neg (by rw [hf2]; exact Bool.false_ne_true)] at he2
      have hr2 : (get_slides w doc (get_slides w doc st).2.1).1 = [] := by
        rw [get_slides_result w doc _]
        by_cases hsup : lowerAscii (pySuffix doc) = ".pptx" ∨ lowerAscii (pySuffix doc) = ".ppt" ∨
            lowerAscii (pySuffix doc) = ".pdf"
        · rw [he2, if_pos hsup]
          have hprod : producedPngs w doc = [] := by
            -- the first call already wrote exactly the produced files
            have he1b := get_slides_final_entry w doc st
            by_cases hc1 : is_cached st doc = true
            · -- then the first call left the state unchanged, contradicting hf2
              rw [get_slides_cached w doc st hc1] at hf2
              rw [hc1] at hf2
              exact absurd hf2 (by simp)
            · rw [if_neg hc1, if_pos hsup] at he1b
              rw [he1b] at he1
              simpa using he1
          rw [hprod]
          rfl
        · rw [he2, if_neg hsup, he1]
          rfl
      rw [hr1, hr2]
  · -- a nonempty first result means the entry is valid, so no reconversion
    intro hne
    have hc2 : is_cached (get_slides w doc st).2.1 doc = true := by
      by_contra hcon
      have hf2 : is_cached (get_slides w doc st).2.1 doc = false := by
        revert hcon; cases is_cached (get_slides w doc st).2.1 doc <;> simp
      have he1 : ((get_slides w doc st).2.1 (get_cache_path doc)).getD [] = [] :=
        is_cached_false_entry hf2
      have hr1 : (get_slides w doc st).1 = [] := by
        rw [get_slides_result w doc st, he1]
        rfl
      exact hne hr1
    rw [get_slides_cached w doc _ hc2]

/-- World where every conversion tool exits cleanly but writes no
output files: a conversion that fails with zero output. -/
def demoFailWorld : ConvWorld :=
  { pdfToolFiles := fun _ => [],
    pdfToolOk := fun _ => true,
    pptxToolOk := fun _ => true,
    pptxPdfProduced := fun _ => true }

/-- Empty slides cache. -/
def emptyCache : CacheState := fun _ => none

/-- C5 counterexample: when the first conversion yields zero images the
entry stays empty, so the second get_slides call invokes the
conversion pipeline again — two invocations across two calls, not at
most one as claimed. -/
theorem c5_reconversion_counterexample :
    ¬((get_slides demoFailWorld "deck.pdf" emptyCache).2.2 +
        (get_slides demoFailWorld "deck.pdf"
          (get_slides demoFailWorld "deck.pdf" emptyCache).2.1).2.2 ≤ 1) := by
  decide

/-- Cache state already holding one slide for deck. -/
def cachedCache : CacheState :=
  fun k => if k = "deck" then some ["slide_000.png"] else none

theorem c5_cache_reuse_witness :
    is_cached cachedCache "deck.pdf" = true ∧
    get_slides demoFailWorld "deck.pdf" cachedCache =
      (sortStrings ((cachedCache (get_cache_path "deck.pdf")).getD []), cachedCache, 0) :=
  ⟨rfl, (c5_cache_reuse demoFailWorld "deck.pdf" cachedCache).1 rfl⟩


theorem convert_presentation_result_empty (w : ConvWorld) (doc : String) (st : CacheState)
    (hca : is_cached st doc = false) (hf : conversionFails w doc = true) :
    (convert_presentation w doc st).1 = [] := by
  have hempty := is_cached_false_entry hca
  by_cases h1 : lowerAscii (pySuffix doc) = ".pptx" ∨ lowerAscii (pySuffix doc) = ".ppt"
  · simp only [convert_presentation, if_pos h1, convert_pptx]
    by_cases h2 : w.pptxToolOk doc = false
    · simp [h2]
    · have h2t : w.pptxToolOk doc = true := by
        revert h2; cases w.pptxToolOk doc <;> simp
      by_cases h3 : w.pptxPdfProduced doc = false
      · simp [h2t, h3]
      · have h3t : w.pptxPdfProduced doc = true := by
          revert h3; cases w.pptxPdfProduced doc <;> simp
        by_cases h4 : w.pdfToolOk (pptxPdfPath (get_cache_path doc)) = false
        · simp [h2t, h3t, convert_pdf_to_png, mkdirCache, h4]
        · have h4t : w.pdfToolOk (pptxPdfPath (get_cache_path doc)) = true := by
            revert h4; cases w.pdfToolOk (pptxPdfPath (get_cache_path doc)) <;> simp
          have hprodempty : w.pdfToolFiles (pptxPdfPath (get_cache_path doc)) = [] := by
            unfold conversionFails at hf
            rw [if_pos h1] at hf
            simp [h2t, h3t, h4t, producedPngs, h1, List.isEmpty_iff] at hf
            exact hf
          simp [h2t, h3t, convert_pdf_to_png, mkdirCache, h4t, hempty, hprodempty, sortStrings]
  · by_cases hpdf : lowerAscii (pySuffix doc) = ".pdf"
    · simp only [convert_presentation, if_neg h1, if_pos hpdf, convert_pdf]
      by_cases h4 : w.pdfToolOk doc = false
      · simp [convert_pdf_to_png, mkdirCache, h4]
      · have h4t : w.pdfToolOk doc = true := by
          revert h4; cases w.pdfToolOk doc <;> simp
        have hprodempty : w.pdfToolFiles doc = [] := by
          unfold conversionFails at hf
          rw [if_neg h1, if_pos hpdf] at hf
          simp [h4t, List.isEmpty_iff] at hf
          exact hf
        simp [convert_pdf_to_png, mkdirCache, h4t, hempty, hprodempty, sortStrings]
    · unfold conversionFails at hf
      rw [if_neg h1, if_neg hpdf] at hf
      exact absurd hf (by simp)

/-- C6 (amended): a failed conversion (tool timeout or nonzero exit
anywhere in the pipeline, missing intermediate PDF, or zero output
files) returns an empty result; the cache entry is left absent or
empty provided the failed tool run wrote no image files; but image
files written by a failed run remain in the entry, which then passes
the at-least-one-image validity check and is treated as valid. -/
theorem c6_failure_empty_result :
    ∀ (w : ConvWorld) (doc : String) (st : CacheState),
      is_cached st doc = false → conversionFails w doc = true →
      (convert_presentation w doc st).1 = [] ∧
      (producedPngs w doc = [] →
        (convert_presentation w doc st).2.1 (get_cache_path doc) = none ∨
        (convert_presentation w doc st).2.1 (get_cache_path doc) = some []) ∧
      (producedPngs w doc ≠ [] →
        is_cached (convert_presentation w doc st).2.1 doc = true) := by
  intro w doc st hca hf
  have hempty := is_cached_false_entry hca
  have hentry := convert_presentation_entry w doc st
  refine ⟨convert_presentation_result_empty w doc st hca hf, ?_, ?_⟩
  · intro hprod
    by_cases hsup : lowerAscii (pySuffix doc) = ".pptx" ∨ lowerAscii (pySuffix doc) = ".ppt" ∨
        lowerAscii (pySuffix doc) = ".pdf"
    · right
      rw [hentry, if_pos hsup, hempty, hprod]
      rfl
    · rw [hentry, if_neg hsup]
      exact is_cached_false_cases hca
  · intro hprod
    have hsup : lowerAscii (pySuffix doc) = ".pptx" ∨ lowerAscii (pySuffix doc) = ".ppt" ∨
        lowerAscii (pySuffix doc) = ".pdf" := by
      by_contra hcon
      push_neg at hcon
      apply hprod
      unfold producedPngs
      rw [if_neg (by tauto), if_neg hcon.2.2]
    unfold is_cached
    rw [hentry, if_pos hsup, hempty]
    simp [List.length_pos, hprod]

/-- World where the PDF tool writes one slide PNG and then exits
nonzero: a failed conversion with partial output. -/
def demoPartialWorld : ConvWorld :=
  { pdfToolFiles := fun d => if d = "deck.pdf" then ["slide_000.png"] else [],
    pdfToolOk := fun _ => false,
    pptxToolOk := fun _ => true,
    pptxPdfProduced := fun _ => true }

/-- C6 counterexample: a conversion that fails with partial output
returns an empty result but leaves the partial PNG in the cache entry,
which is then neither absent nor empty and passes the validity check —
the partial state is promoted, contradicting the claim. -/
theorem c6_partial_promoted_counterexample :
    conversionFails demoPartialWorld "deck.pdf" = true ∧
    (convert_presentation demoPartialWorld "deck.pdf" emptyCache).1 = [] ∧
    (convert_presentation demoPartialWorld "deck.pdf" emptyCache).2.1
        (get_cache_path "deck.pdf") = some ["slide_000.png"] ∧
    is_cached (convert_presentation demoPartialWorld "deck.pdf" emptyCache).2.1
        "deck.pdf" = true := by
  decide

theorem c6_failure_witness :
    is_cached emptyCache "notes.pdf" = false ∧
    conversionFails demoFailWorld "notes.pdf" = true ∧
    (convert_presentation demoFailWorld "notes.pdf" emptyCache).1 = [] :=
  ⟨by decide, by decide,
    (c6_failure_empty_result demoFailWorld "notes.pdf" emptyCache (by decide) (by decide)).1⟩

/-- C7: whenever a command file is present at poll time, the
controller removes it immediately after reading it and before acting,
so it is gone regardless of what the action does; an unparseable file
parses to the empty dict, whose action is None, so nothing but the
removal happens. -/
theorem c7_mailbox_consumed :
    ∀ (st : PState) (m : MailMsg), st.mailbox = some m →
      (process_commands_if_any st).mailbox = none ∧
      (m = MailMsg.unparseable →
        process_commands_if_any st = { st with mailbox := none }) := by
  intro st m h
  constructor
  · unfold process_commands_if_any
    rw [h]
    rw [applyAction_mailbox]
  · intro hm
    subst hm
    unfold process_commands_if_any
    rw [h]
    simp [applyAction]

/-- Concrete controller state holding an unparseable command file. -/
def demoPState : PState :=
  { mailbox := some MailMsg.unparseable, ordering := some demoRawOrdering, snap := demoSnap,
    playlistFile := [], vlcRunning := true, vlcPaused := false, pending := true }

theorem c7_mailbox_witness :
    demoPState.mailbox = some MailMsg.unparseable ∧
    process_commands_if_any demoPState = { demoPState with mailbox := none } :=
  ⟨rfl, (c7_mailbox_consumed demoPState MailMsg.unparseable rfl).2 rfl⟩

/-- C8: the Stream Server pending-command query returns the content of
the relay mailbox but never deletes it: the file-system state after
the request equals the state before, a second poll returns the same
response, and the returned command is exactly the file content (None
when no file exists). -/
theorem c8_relay_read_only :
    ∀ st : WebRelayState,
      (api_command st).2 = st ∧
      (api_command st).1 = (api_command (api_command st).2).1 ∧
      (∀ m, st.webMailbox = some m →
        (api_command st).1.command = some (readContent m)) ∧
      (st.webMailbox = none → (api_command st).1.command = none) := by
  intro st
  cases hm : st.webMailbox with
  | none =>
      refine ⟨?_, ?_, ?_, ?_⟩
      · simp [api_command, hm]
      · simp [api_command, hm]
      · intro m h
        exact Option.noConfusion h
      · intro _
        simp [api_command, hm]
  | some m =>
      refine ⟨?_, ?_, ?_, ?_⟩
      · simp [api_command, hm]
      · simp [api_command, hm]
      · intro m2 h
        injection h with h2
        subst h2
        simp [api_command, hm]
      · intro hcon
        exact Option.noConfusion hcon

theorem c8_relay_witness :
    (api_command
        { webMailbox := some (WebMsg.parseable { action := some "next", ts := some 5 }) }).2 =
      { webMailbox := some (WebMsg.parseable { action := some "next", ts := some 5 }) } ∧
    (api_command
        { webMailbox := some (WebMsg.parseable { action := some "next", ts := some 5 }) }).1.command =
      some (readContent (WebMsg.parseable { action := some "next", ts := some 5 })) :=
  ⟨(c8_relay_read_only _).1, (c8_relay_read_only _).2.2.1 _ rfl⟩

/-- C9: a next command on a nonempty resolved ContentSet rotates it by
moving the first item to the end, a prev command moves the last item
to the front, and either restarts the player against the rotated
sequence; the branch never consults pending_update and leaves it
unchanged, as the resulting state shows for every starting state. On
an empty ContentSet nothing beyond the mailbox removal happens. -/
theorem c9_next_prev_rotate :
    ∀ (st : PState) (a : String), st.mailbox = some (MailMsg.parseable (some a)) →
      (a = "next" ∨ a = "prev") →
      (stateItems st = [] → process_commands_if_any st = { st with mailbox := none }) ∧
      (stateItems st ≠ [] →
        process_commands_if_any st =
          { st with
              mailbox := none,
              playlistFile :=
                if a = "next" then rotate_next (stateItems st) else rotate_prev (stateItems st),
              vlcRunning := true,
              vlcPaused := false }) ∧
      (∀ (x : PlayItem) (xs : List PlayItem), rotate_next (x :: xs) = xs ++ [x]) ∧
      (∀ (x : PlayItem) (xs : List PlayItem),
        rotate_prev (x :: xs) = (x :: xs).getLast (by simp) :: (x :: xs).dropLast) := by
  intro st a h hor
  have hmb := stateItems_mailbox_erased st
  rcases hor with ha | ha
  · subst ha
    have hred : process_commands_if_any st = applyAction (some "next") { st with mailbox := none } := by
      unfold process_commands_if_any
      rw [h]
    refine ⟨?_, ?_, fun x xs => rfl, fun x xs => rfl⟩
    · intro hempty
      rw [hred]
      unfold applyAction
      rw [if_neg (by decide), if_neg (by decide), if_pos (by decide)]
      simp [hmb, hempty]
    · intro hne
      have hfalse : (stateItems st).isEmpty = false := by
        cases hi : stateItems st with
        | nil => exact absurd hi hne
        | cons x xs => rfl
      rw [hred]
      unfold applyAction
      rw [if_neg (by decide), if_neg (by decide), if_pos (by decide)]
      simp only [hmb, hfalse]
      simp
  · subst ha
    have hred : process_commands_if_any st = applyAction (some "prev") { st with mailbox := none } := by
      unfold process_commands_if_any
      rw [h]
    refine ⟨?_, ?_, fun x xs => rfl, fun x xs => rfl⟩
    · intro hempty
      rw [hred]
      unfold applyAction
      rw [if_neg (by decide), if_neg (by decide), if_pos (by decide)]
      simp [hmb, hempty]
    · intro hne
      have hfalse : (stateItems st).isEmpty = false := by
        cases hi : stateItems st with
        | nil => exact absurd hi hne
        | cons x xs => rfl
      rw [hred]
      unfold applyAction
      rw [if_neg (by decide), if_neg (by decide), if_pos (by decide)]
      simp only [hmb, hfalse]
      simp

/-- Concrete controller state holding a next command and a resolvable
ordering. -/
def demoCmdState : PState :=
  { mailbox := some (MailMsg.parseable (some "next")), ordering := some demoRawOrdering,
    snap := demoSnap, playlistFile := [], vlcRunning := true, vlcPaused := true, pending := true }

theorem c9_next_prev_witness :
    demoCmdState.mailbox = some (MailMsg.parseable (some "next")) ∧
    stateItems demoCmdState ≠ [] ∧
    process_commands_if_any demoCmdState =
      { demoCmdState with
          mailbox := none,
          playlistFile :=
            if "next" = "next" then rotate_next (stateItems demoCmdState)
            else rotate_prev (stateItems demoCmdState),
          vlcRunning := true,
          vlcPaused := false } :=
  ⟨rfl, by decide,
    (c9_next_prev_rotate demoCmdState "next" rfl (Or.inl rfl)).2.1 (by decide)⟩
